import Mathlib

/-!
Verification development for the Canvas-to-Notion sync repository.

The repository is a single-pass ETL pipeline in three Python scripts:
  * src/api/sync.py               (serverless variant: extract_course_code,
    fetch_canvas_assignments, get_existing_tasks, sync_assignments)
  * src/canvas_to_notion_sync.py  (CLI variant: find_notion_project_url, ...)
  * src/sync_to_notion.py         (hand-off script)

Strings are modelled as lists of characters.  Python regular expressions
used by the code are embedded as deterministic scanners: every regex in the
source has character classes that make greedy matching deterministic
(each quantified class is disjoint from the character that must follow),
so a leftmost-scan with maximal-munch per class is extensionally the
Python search/sub semantics on those patterns.  Network effects (HTTP
responses, creation outcomes) are passed in as explicit data.
-/

abbrev Str := List Char

/-- ASCII lowercase letter, the regex class [a-z] (codes 97..122). -/
def isLowerAlpha (c : Char) : Bool := decide (97 ≤ c.toNat ∧ c.toNat ≤ 122)

/-- ASCII uppercase letter, the regex class [A-Z] (codes 65..90). -/
def isUpperAlpha (c : Char) : Bool := decide (65 ≤ c.toNat ∧ c.toNat ≤ 90)

/-- ASCII digit, the regex class \d restricted to ASCII (codes 48..57). -/
def isDigitChar (c : Char) : Bool := decide (48 ≤ c.toNat ∧ c.toNat ≤ 57)

/-- The regex class [\d_]: a digit or an underscore. -/
def digitOrUnd (c : Char) : Bool := isDigitChar c || c = '_'

/-- The regex class [a-z_\d] under IGNORECASE: letters of either case,
digits and underscore (used by the trailing machine-tag cleanup). -/
def tagChar (c : Char) : Bool := isLowerAlpha c || isUpperAlpha c || isDigitChar c || c = '_'

/-- ASCII whitespace as matched by Python's \s on str (space, tab, LF, CR,
vertical tab, form feed); the model is restricted to ASCII text. -/
def pySpace (c : Char) : Bool :=
  c = ' ' || c = '\t' || c = '\n' || c = '\r' || c = '\x0b' || c = '\x0c'

/-- Python str.lower() on one character, restricted to ASCII. -/
def pyLower (c : Char) : Char :=
  if isUpperAlpha c then Char.ofNat (c.toNat + 32) else c

/-- Python str.upper() on one character, restricted to ASCII. -/
def pyUpper (c : Char) : Char :=
  if isLowerAlpha c then Char.ofNat (c.toNat - 32) else c

/-- Python str.strip(): remove leading and trailing whitespace. -/
def pyStrip (s : Str) : Str :=
  ((s.dropWhile pySpace).reverse.dropWhile pySpace).reverse

/-- First-key-wins association lookup, modelling Python dict membership
plus indexing on the literal course-mapping dicts (whose keys are unique). -/
def lookupKey {β : Type} (m : List (Str × β)) (k : Str) : Option β :=
  match m with
  | [] => none
  | (k0, v0) :: rest => if k = k0 then some v0 else lookupKey rest k

/-- The due-date normalization shared by both pipeline variants
(src/api/sync.py line 117 and src/sync_to_notion.py lines 44-47):
due_date_str.split('T')[0] if 'T' in due_date_str else due_date_str.
split('T')[0] is the prefix of the string before its first 'T'. -/
def stripTime (s : Str) : Str :=
  if 'T' ∈ s then s.takeWhile (fun c => c ≠ 'T') else s

theorem toNat_ofNat_valid (n : Nat) (hv : n.isValidChar) : (Char.ofNat n).toNat = n := by
  rw [Char.ofNat, dif_pos hv]
  rfl

theorem isUpperAlpha_pyUpper (c : Char) (h : isLowerAlpha c = true) :
    isUpperAlpha (pyUpper c) = true := by
  simp only [isLowerAlpha, decide_eq_true_eq] at h
  have hv : (c.toNat - 32).isValidChar := by
    unfold Nat.isValidChar
    omega
  simp only [pyUpper, isLowerAlpha, isUpperAlpha, decide_eq_true_eq, h, and_self, if_pos]
  rw [toNat_ofNat_valid _ hv]
  omega

namespace Api

/-- Course mapping of src/api/sync.py (COURSE_MAPPING): Canvas course codes
to Notion project page ids; the value None marks a recognized course that is
intentionally excluded from sync. -/
def COURSE_MAPPING : List (Str × Option Str) :=
  [("HIST 281".toList, some "25a399d357138029a22fc5319c5d711e".toList),
   ("CS 124".toList,   some "25a399d357138052ab2be817336f99b7".toList),
   ("MATH 231".toList, some "25a399d3571380a9899bfd0aa5f4d4c6".toList),
   ("ENG 100".toList,  some "25a399d3571380c1a736d06745eb29af".toList),
   ("ENG 111".toList,  some "25a399d35713808ba76df0511179d181".toList),
   ("TE 200".toList,   some "25a399d3571380c5bd2deff44048c237".toList),
   ("PHYS 100".toList, some "25a399d35713801ca04adabfb0e0e57e".toList),
   ("CS 199".toList,   some "263399d3571380c5bd2deff44048c237".toList),
   ("CS 100".toList,   some "25a399d357138026a3f0f9b3f05b5454".toList),
   ("CITL".toList,     none)]

/-- Anchored match of the regex \[([a-z]+)_(\d+)_[\d_]+\] at the head of the
(already lowercased) string; returns the two capture groups (subject, number).
Each greedy class is disjoint from the required follower, so maximal munch is
exactly the Python backtracking semantics. -/
def tagMatchAt (s : Str) : Option (Str × Str) :=
  match s with
  | '[' :: r =>
    let sub := r.takeWhile isLowerAlpha
    if sub = [] then none else
    match r.dropWhile isLowerAlpha with
    | '_' :: r2 =>
      let num := r2.takeWhile isDigitChar
      if num = [] then none else
      (match r2.dropWhile isDigitChar with
       | '_' :: r3 =>
         let run := r3.takeWhile digitOrUnd
         if run = [] then none else
         (match r3.dropWhile digitOrUnd with
          | ']' :: _ => some (sub, num)
          | _ => none)
       | _ => none)
    | _ => none
  | _ => none

/-- re.search of \[([a-z]+)_(\d+)_[\d_]+\]: try the anchored match at each
position from the left, first success wins. -/
def findTag : Str → Option (Str × Str)
  | [] => none
  | c :: cs =>
    match tagMatchAt (c :: cs) with
    | some r => some r
    | none => findTag cs

/-- Anchored match of ([a-z]+)_(\d+)(?:_|$) at the head of the (lowercased)
location string.  The $ of a Python non-MULTILINE pattern also matches just
before a single trailing newline. -/
def locMatchAt (s : Str) : Option (Str × Str) :=
  let sub := s.takeWhile isLowerAlpha
  if sub = [] then none else
  match s.dropWhile isLowerAlpha with
  | '_' :: r2 =>
    let num := r2.takeWhile isDigitChar
    if num = [] then none else
    (match r2.dropWhile isDigitChar with
     | [] => some (sub, num)
     | ['\n'] => some (sub, num)
     | '_' :: _ => some (sub, num)
     | _ => none)
  | _ => none

/-- re.search of ([a-z]+)_(\d+)(?:_|$): leftmost anchored match. -/
def findLoc : Str → Option (Str × Str)
  | [] => none
  | c :: cs =>
    match locMatchAt (c :: cs) with
    | some r => some r
    | none => findLoc cs

/-- extract_course_code of src/api/sync.py (lines 40-57): search the
lowercased summary for the bracketed machine tag; if that fails and the
location is non-empty, search the lowercased location; build
"SUBJECT NUMBER" with the subject upper-cased. -/
def extract_course_code (summary location : Str) : Option Str :=
  match findTag (summary.map pyLower) with
  | some (sub, num) => some (sub.map pyUpper ++ ' ' :: num)
  | none =>
    if location ≠ [] then
      match findLoc (location.map pyLower) with
      | some (sub, num) => some (sub.map pyUpper ++ ' ' :: num)
      | none => none
    else none

end Api

namespace Api

/-- Whether a string contains 5 or more consecutive ASCII digits; k counts
the digits of the current run.  This is the condition under which
[^)]*\d{5,}[^)]* can cover a parenthesized segment. -/
def hasDigitRun5 : Str → Nat → Bool
  | [], k => 5 ≤ k
  | c :: cs, k => if isDigitChar c then hasDigitRun5 cs (k + 1) else (5 ≤ k || hasDigitRun5 cs 0)

/-- Anchored match of \s*\([^)]*\d{5,}[^)]*\)\s* : optional whitespace, an
open paren, a segment up to the first close paren containing a run of 5+
digits, the close paren, trailing whitespace.  Returns the remainder of the
string after the match. -/
def parenMatchAt (s : Str) : Option Str :=
  match (s.dropWhile pySpace) with
  | '(' :: r =>
    let interior := r.takeWhile (fun c => c ≠ ')')
    (match r.dropWhile (fun c => c ≠ ')') with
     | ')' :: r2 => if hasDigitRun5 interior 0 then some (r2.dropWhile pySpace) else none
     | _ => none)
  | _ => none

/-- re.sub(r'\s*\([^)]*\d{5,}[^)]*\)\s*', '', name): scan from the left,
deleting every non-overlapping match.  Fuel is the input length; every
successful match consumes at least 7 characters, so the fuel suffices. -/
def dropNumberedParens : Nat → Str → Str
  | 0, s => s
  | _ + 1, [] => []
  | fuel + 1, c :: cs =>
    match parenMatchAt (c :: cs) with
    | some rest => dropNumberedParens fuel rest
    | none => c :: dropNumberedParens fuel cs

/-- re.sub(r'\s*\[[a-z_\d]+\]\s*$', '', name, flags=IGNORECASE): remove one
trailing bracketed machine tag together with the whitespace around it.  The
match is reconstructed from the right end of the string. -/
def dropTrailingTag (s : Str) : Str :=
  match (s.reverse.dropWhile pySpace) with
  | ']' :: r2 =>
    let body := r2.takeWhile tagChar
    if body = [] then s else
    (match r2.dropWhile tagChar with
     | '[' :: r3 => (r3.dropWhile pySpace).reverse
     | _ => s)
  | _ => s

/-- re.sub(r'^\[([A-Z]+\s*\d+[A-Z]*)\]\s*', '', name): remove a leading
bracketed human-written course code and the whitespace after it. -/
def dropLeadingCode (s : Str) : Str :=
  match s with
  | '[' :: r =>
    let letters := r.takeWhile isUpperAlpha
    if letters = [] then s else
    let r1 := (r.dropWhile isUpperAlpha).dropWhile pySpace
    let digits := r1.takeWhile isDigitChar
    if digits = [] then s else
    (match ((r1.dropWhile isDigitChar).dropWhile isUpperAlpha) with
     | ']' :: r5 => r5.dropWhile pySpace
     | _ => s)
  | _ => s

/-- Assignment-name cleanup of src/api/sync.py lines 83-88: strip a trailing
machine tag, drop parenthesized segments holding a 5+ digit number, strip a
leading bracketed course code, then trim whitespace. -/
def cleanName (summary : Str) : Str :=
  pyStrip (dropLeadingCode (dropNumberedParens (dropTrailingTag summary).length
    (dropTrailingTag summary)))

/-- The literal part of the Canvas-URL regex
https://canvas\.illinois\.edu/[^\s<>"]+ . -/
def canvasUrlLit : Str := "https://canvas.illinois.edu/".toList

/-- The regex class [^\s<>"]. -/
def urlChar (c : Char) : Bool := !(pySpace c) && c ≠ '<' && c ≠ '>' && c ≠ '"'

/-- Whether the pattern list is an initial segment of the string. -/
def headSeg : Str → Str → Bool
  | [], _ => true
  | _ :: _, [] => false
  | p :: ps, c :: cs => p = c && headSeg ps cs

/-- Anchored match of the Canvas-URL regex: the literal prefix followed by a
non-empty greedy run of URL characters; returns the whole matched text. -/
def urlMatchAt (s : Str) : Option Str :=
  if headSeg canvasUrlLit s then
    let run := (s.drop canvasUrlLit.length).takeWhile urlChar
    if run = [] then none else some (canvasUrlLit ++ run)
  else none

/-- re.search of the Canvas-URL regex over the event description. -/
def findCanvasUrl : Str → Option Str
  | [] => none
  | c :: cs =>
    match urlMatchAt (c :: cs) with
    | some u => some u
    | none => findCanvasUrl cs

/-- The dtstart value of a calendar event, as consumed by the pipeline.  The
underlying datetime/date object is library-owned; the model keeps exactly
what the code observes of it: the string produced when the object has an
isoformat method (isoStr - both datetime and date have one; none models an
exotic object without it), the strftime('%Y-%m-%d') rendering used
otherwise, and the ordinal of the calendar date used by the future-only
comparison (covering both the .date() call on datetimes and the direct
comparison on dates). -/
structure DtValue where
  isoStr : Option Str
  fmtStr : Str
  dateOrd : Int
deriving DecidableEq

/-- A parsed calendar component as walked by fetch_canvas_assignments:
compName is component.name, the remaining fields are the str() images of
summary/description/location/uid and the optional dtstart. -/
structure VEvent where
  compName : Str
  summary : Str
  dtstart : Option DtValue
  description : Str
  location : Str
  uid : Str
deriving DecidableEq

/-- The AssignmentRecord dict built by fetch_canvas_assignments. -/
structure Assignment where
  name : Str
  course_code : Option Str
  due_date : Option Str
  canvas_url : Option Str
  uid : Str
deriving DecidableEq

/-- The per-event body of the fetch_canvas_assignments loop
(src/api/sync.py lines 71-122): keep VEVENT components with a non-empty
summary and a dtstart whose date is not before today, and build the
assignment record.  now is the ordinal of datetime.now().date(). -/
def processEvent (now : Int) (c : VEvent) : Option Assignment :=
  if c.compName ≠ "VEVENT".toList then none else
  if c.summary = [] then none else
  let course_code := extract_course_code c.summary c.location
  let assignment_name := cleanName c.summary
  match c.dtstart with
  | none => none
  | some dt =>
    let due_date_str := match dt.isoStr with
      | some s => s
      | none => dt.fmtStr
    if dt.dateOrd < now then none else
    some { name := assignment_name,
           course_code := course_code,
           due_date := some (stripTime due_date_str),
           canvas_url := findCanvasUrl c.description,
           uid := c.uid }

/-- fetch_canvas_assignments of src/api/sync.py (lines 61-124), applied to
an already fetched and parsed calendar: the list of assignment records, in
event order. -/
def fetch_canvas_assignments (events : List VEvent) (now : Int) : List Assignment :=
  events.filterMap (processEvent now)

end Api

namespace Api

/-- One page of the Notion query response, reduced to what the code reads:
the list of plain_text values of the Name title property (empty when the
property has no title items). -/
structure NotionPage where
  title : List Str
deriving DecidableEq

/-- The HTTP response of the POST to the database query endpoint. -/
structure QueryResp where
  status : Nat
  results : List NotionPage
deriving DecidableEq

/-- get_existing_tasks of src/api/sync.py (lines 127-146): on a 200
response, collect the stripped first-plain-text of each page with a
non-empty title into a set (modelled as a duplicate-free list); on any
other status return the empty set. -/
def get_existing_tasks (resp : QueryResp) : List Str :=
  if resp.status = 200 then
    resp.results.foldl
      (fun acc page =>
        match page.title with
        | [] => acc
        | t :: _ => let n := pyStrip t; if n ∈ acc then acc else n :: acc)
      []
  else []

/-- Truthiness of a project-id value: Python treats both None and the empty
string as falsy in the `if not project_id` test. -/
def truthyOpt : Option Str → Bool
  | none => false
  | some s => !s.isEmpty

/-- The mutable tallies of the sync_assignments loop, plus a ghost counter
nCreates of how many create_notion_task requests have been issued (the
request is modelled by its outcome: the oracle applied to the request
index). -/
structure SyncState where
  created : Nat
  skipped : Nat
  errors : List Str
  nCreates : Nat
deriving DecidableEq

/-- The tallies before the loop: created = 0, skipped = 0, errors = []. -/
def initState : SyncState := { created := 0, skipped := 0, errors := [], nCreates := 0 }

/-- One iteration of the sync_assignments loop (src/api/sync.py lines
228-254).  The three separate skip tests mirror the source: duplicate name;
`not course_code or course_code not in COURSE_MAPPING` (split into the None,
empty-string and missing-key cases); falsy mapped project id.  A surviving
assignment issues one creation request whose outcome is oracle st.nCreates. -/
def syncStep (existing : List Str) (oracle : Nat → Bool) (st : SyncState) (a : Assignment) :
    SyncState :=
  if a.name ∈ existing then { st with skipped := st.skipped + 1 }
  else
    match a.course_code with
    | none => { st with skipped := st.skipped + 1 }
    | some cc =>
      if cc = [] then { st with skipped := st.skipped + 1 }
      else
        match lookupKey COURSE_MAPPING cc with
        | none => { st with skipped := st.skipped + 1 }
        | some project_id =>
          if truthyOpt project_id then
            if oracle st.nCreates then
              { st with created := st.created + 1, nCreates := st.nCreates + 1 }
            else
              { st with errors := st.errors ++ [a.name], nCreates := st.nCreates + 1 }
          else { st with skipped := st.skipped + 1 }

/-- The whole for-loop of sync_assignments over the assignment list. -/
def syncLoop (existing : List Str) (oracle : Nat → Bool) (st : SyncState)
    (assignments : List Assignment) : SyncState :=
  assignments.foldl (syncStep existing oracle) st

/-- How one assignment is handled by the loop: the five mutually exclusive
outcomes of the branch cascade, in source order.  ok is the outcome of the
creation request when one is issued. -/
inductive StepKind where
  | dup
  | unmapped
  | excluded
  | createOk
  | createFail
deriving DecidableEq

/-- Classification of one assignment by the branch cascade of syncStep. -/
def classify (existing : List Str) (ok : Bool) (a : Assignment) : StepKind :=
  if a.name ∈ existing then .dup
  else
    match a.course_code with
    | none => .unmapped
    | some cc =>
      if cc = [] then .unmapped
      else
        match lookupKey COURSE_MAPPING cc with
        | none => .unmapped
        | some project_id =>
          if truthyOpt project_id then (if ok then .createOk else .createFail)
          else .excluded

/-- Whether an assignment reaches the creation request: not filtered by the
course-mapping tests (duplicate filtering is separate and depends on the
existing-title set). -/
def eligible (a : Assignment) : Bool :=
  match a.course_code with
  | none => false
  | some cc =>
    if cc = [] then false
    else
      match lookupKey COURSE_MAPPING cc with
      | none => false
      | some project_id => truthyOpt project_id

/-- The JSON body returned by sync_assignments: either the error dict
(constructor err) or the success summary dict with fields
success=True, total_assignments, created, skipped, errors (constructor ok;
the timestamp field, datetime.now().isoformat(), carries no verified
content and is not modelled). -/
inductive SyncResult where
  | err (msg : Str)
  | ok (total created skipped : Nat) (errors : List Str)
deriving DecidableEq

/-- sync_assignments of src/api/sync.py (lines 210-262).  Ambient effects
are passed in: exc is the exception raised inside the try block if any
(requests.get/raise_for_status/parse or the query POST), events and now are
the parsed calendar and today's date behind fetch_canvas_assignments, qresp
is the query response behind get_existing_tasks, and oracle gives each
creation request's outcome.  Returns the JSON body and the HTTP status. -/
def sync_assignments (icsUrl notionToken : Str) (exc : Option Str)
    (events : List VEvent) (now : Int) (qresp : QueryResp) (oracle : Nat → Bool) :
    SyncResult × Nat :=
  if icsUrl = [] then (.err "CANVAS_ICS_URL not configured".toList, 500)
  else if notionToken = [] then (.err "NOTION_API_TOKEN not configured".toList, 500)
  else
    match exc with
    | some e => (.err e, 500)
    | none =>
      let assignments := fetch_canvas_assignments events now
      let existing := get_existing_tasks qresp
      let st := syncLoop existing oracle initState assignments
      (.ok assignments.length st.created st.skipped st.errors, 200)

end Api

namespace Cli

/-- Course mapping of src/canvas_to_notion_sync.py: course codes to Notion
project page URLs; CITL is explicitly mapped to None (skip, not a class). -/
def COURSE_MAPPING : List (Str × Option Str) :=
  [("HIST 281".toList, some "https://www.notion.so/25a399d357138029a22fc5319c5d711e".toList),
   ("CS 124".toList,   some "https://www.notion.so/25a399d357138052ab2be817336f99b7".toList),
   ("MATH 231".toList, some "https://www.notion.so/25a399d3571380a9899bfd0aa5f4d4c6".toList),
   ("ENG 100".toList,  some "https://www.notion.so/25a399d3571380c1a736d06745eb29af".toList),
   ("ENG 111".toList,  some "https://www.notion.so/25a399d35713808ba76df0511179d181".toList),
   ("TE 200".toList,   some "https://www.notion.so/25a399d3571380c5bd2deff44048c237".toList),
   ("PHYS 100".toList, some "https://www.notion.so/25a399d35713801ca04adabfb0e0e57e".toList),
   ("CS 199".toList,   some "https://www.notion.so/263399d3571380c5bd2deff44048c237".toList),
   ("CS 100".toList,   some "https://www.notion.so/25a399d357138026a3f0f9b3f05b5454".toList),
   ("CITL".toList,     none)]

/-- course_code.replace(' ', ''): the code with its internal spaces removed. -/
def despace (s : Str) : Str := s.filter (fun c => c ≠ ' ')

/-- find_notion_project_url of src/canvas_to_notion_sync.py (lines 154-168):
None for a falsy code; exact dict lookup first; otherwise the first mapping
key equal to the code after removing spaces from both; otherwise None.  As
in the source, a found entry may itself carry None (the excluded CITL row). -/
def find_notion_project_url (course_code : Option Str) : Option Str :=
  match course_code with
  | none => none
  | some cc =>
    if cc = [] then none
    else
      match lookupKey COURSE_MAPPING cc with
      | some v => v
      | none =>
        match COURSE_MAPPING.find? (fun kv => decide (despace kv.1 = despace cc)) with
        | some kv => kv.2
        | none => none

end Cli

theorem not_mem_stripTime (s : Str) : 'T' ∉ stripTime s := by
  unfold stripTime
  split
  case isTrue h =>
    intro hmem
    have := List.mem_takeWhile_imp hmem
    simp at this
  case isFalse h => exact h

theorem dropWhile_ne_head (s : Str) (h : 'T' ∈ s) :
    ∃ r, s.dropWhile (fun c => c ≠ 'T') = 'T' :: r := by
  induction s with
  | nil => cases h
  | cons c cs ih =>
    by_cases hc : c = 'T'
    · subst hc
      refine ⟨cs, ?_⟩
      rw [List.dropWhile_cons_of_neg]
      simp
    · have hmem : 'T' ∈ cs := by
        cases h with
        | head => exact absurd rfl hc
        | tail _ h2 => exact h2
      obtain ⟨r, hr⟩ := ih hmem
      refine ⟨r, ?_⟩
      rw [List.dropWhile_cons_of_pos (by simp [Ne.symm, hc])]
      exact hr

/-- C5: the due-date normalization maps a value with a time-of-day component
to its date-only prefix (the part before the first 'T', which itself holds
no 'T'), leaves a value without a time component unchanged, and is
idempotent. -/
theorem dueDate_normalization (s : Str) :
    ('T' ∈ s → ∃ r, s = stripTime s ++ 'T' :: r ∧ 'T' ∉ stripTime s) ∧
    ('T' ∉ s → stripTime s = s) ∧
    stripTime (stripTime s) = stripTime s := by
  refine ⟨?_, ?_, ?_⟩
  · intro h
    obtain ⟨r, hr⟩ := dropWhile_ne_head s h
    refine ⟨r, ?_, not_mem_stripTime s⟩
    conv_lhs => rw [(List.takeWhile_append_dropWhile (p := fun c => c ≠ 'T') (l := s)).symm]
    rw [hr]
    unfold stripTime
    rw [if_pos h]
  · intro h
    unfold stripTime
    rw [if_neg h]
  · have h1 : 'T' ∉ stripTime s := not_mem_stripTime s
    unfold stripTime
    rw [if_neg]
    exact fun hc => h1 (by simpa [stripTime] using hc)

/-- C5 witness: a concrete timed value is truncated to the date before the
'T', a concrete date-only value is unchanged, and normalizing twice equals
normalizing once. -/
theorem dueDate_normalization_witness :
    (∃ r, "2025-09-15T23:59:00".toList =
        stripTime "2025-09-15T23:59:00".toList ++ 'T' :: r ∧
        'T' ∉ stripTime "2025-09-15T23:59:00".toList) ∧
    stripTime "2025-09-15".toList = "2025-09-15".toList ∧
    stripTime (stripTime "2025-09-15T23:59:00".toList) =
      stripTime "2025-09-15T23:59:00".toList := by
  refine ⟨(dueDate_normalization _).1 (by decide),
    (dueDate_normalization "2025-09-15".toList).2.1 (by decide),
    (dueDate_normalization "2025-09-15T23:59:00".toList).2.2⟩

/-- C2: an assignment whose cleaned name is already among the existing task
titles is skipped: the loop step only increments the skipped tally, leaves
created and the error list untouched, and issues no creation request
(the request counter is unchanged). -/
theorem duplicate_title_skipped (existing : List Str) (oracle : Nat → Bool)
    (st : Api.SyncState) (a : Api.Assignment) (h : a.name ∈ existing) :
    Api.syncStep existing oracle st a = { st with skipped := st.skipped + 1 } := by
  unfold Api.syncStep
  rw [if_pos h]

/-- C2 witness: with "Homework 3" among the existing titles, an incoming
assignment named "Homework 3" only bumps the skipped tally. -/
theorem duplicate_title_skipped_witness :
    Api.syncStep ["Homework 3".toList] (fun _ => true) Api.initState
      { name := "Homework 3".toList, course_code := some "CS 124".toList,
        due_date := some "2025-09-15".toList, canvas_url := none, uid := "u1".toList } =
      { Api.initState with skipped := Api.initState.skipped + 1 } :=
  duplicate_title_skipped _ _ _ _ (by decide)

/-- C3 counterexample: the final tally does not report the excluded and the
unmapped case separately.  Processing one assignment of the
intentionally-excluded CITL pseudo-course (mapped to the None sentinel) and
processing one assignment of an unrecognized course leave byte-identical
tallies - the single combined skipped counter is 1 in both, and created,
errors and the request counter are identical - so the summary built from
them (created, skipped, errors) cannot distinguish the two reasons. -/
theorem excluded_unmapped_not_reported_separately :
    Api.syncLoop [] (fun _ => true) Api.initState
      [{ name := "Orientation".toList, course_code := some "CITL".toList,
         due_date := some "2025-12-01".toList, canvas_url := none, uid := "e1".toList }] =
    Api.syncLoop [] (fun _ => true) Api.initState
      [{ name := "Mystery".toList, course_code := some "BIO 101".toList,
         due_date := some "2025-12-01".toList, canvas_url := none, uid := "e2".toList }] ∧
    Api.syncLoop [] (fun _ => true) Api.initState
      [{ name := "Orientation".toList, course_code := some "CITL".toList,
         due_date := some "2025-12-01".toList, canvas_url := none, uid := "e1".toList }] =
      { created := 0, skipped := 1, errors := [], nCreates := 0 } := by
  constructor
  · decide
  · decide

/-- C3 amended: an assignment whose course code is bound to the
null/excluded sentinel and an assignment whose course code is absent from
the mapping are both skipped without any creation request, but the code
counts both into the one combined skipped tally (there is no separate
excluded/unmapped accounting in the final summary). -/
theorem excluded_and_unmapped_both_skipped (existing : List Str) (oracle : Nat → Bool)
    (st : Api.SyncState) (a b : Api.Assignment) (cca ccb : Str) (v : Option Str)
    (haDup : a.name ∉ existing) (hbDup : b.name ∉ existing)
    (hca : a.course_code = some cca) (hcaNe : cca ≠ [])
    (hv : lookupKey Api.COURSE_MAPPING cca = some v) (hvf : Api.truthyOpt v = false)
    (hcb : b.course_code = some ccb) (hb : lookupKey Api.COURSE_MAPPING ccb = none) :
    Api.syncStep existing oracle st a = { st with skipped := st.skipped + 1 } ∧
    Api.syncStep existing oracle st b = { st with skipped := st.skipped + 1 } := by
  constructor
  · unfold Api.syncStep
    rw [if_neg haDup, hca]
    simp only [hv]
    rw [if_neg (by simp [hcaNe]), hvf]
    simp
  · unfold Api.syncStep
    rw [if_neg hbDup, hcb]
    by_cases hccb : ccb = []
    · simp [hccb]
    · simp only [hb]
      rw [if_neg (by simp [hccb])]

/-- C3 amended witness: a concrete CITL assignment (excluded sentinel) and a
concrete BIO 101 assignment (unmapped) are each skipped into the same
combined tally. -/
theorem excluded_and_unmapped_both_skipped_witness :
    Api.syncStep [] (fun _ => true) Api.initState
      { name := "Orientation".toList, course_code := some "CITL".toList,
        due_date := some "2025-12-01".toList, canvas_url := none, uid := "e1".toList } =
      { Api.initState with skipped := Api.initState.skipped + 1 } ∧
    Api.syncStep [] (fun _ => true) Api.initState
      { name := "Mystery".toList, course_code := some "BIO 101".toList,
        due_date := some "2025-12-01".toList, canvas_url := none, uid := "e2".toList } =
      { Api.initState with skipped := Api.initState.skipped + 1 } :=
  excluded_and_unmapped_both_skipped [] (fun _ => true) Api.initState
    _ _ "CITL".toList "BIO 101".toList none
    (by decide) (by decide) rfl (by decide) (by decide) (by decide) rfl (by decide)

/-- Whether the branch cascade disposes of an assignment by a skip (for one
of the three recorded reasons) rather than by a creation request; the skip
outcomes do not depend on the request outcome. -/
def isSkipStep (existing : List Str) (a : Api.Assignment) : Bool :=
  match Api.classify existing true a with
  | .dup => true
  | .unmapped => true
  | .excluded => true
  | _ => false

theorem syncStep_shape (existing : List Str) (oracle : Nat → Bool)
    (st : Api.SyncState) (a : Api.Assignment) :
    (isSkipStep existing a = true ∧
      Api.syncStep existing oracle st a = { st with skipped := st.skipped + 1 }) ∨
    (isSkipStep existing a = false ∧ oracle st.nCreates = true ∧
      Api.syncStep existing oracle st a =
        { st with created := st.created + 1, nCreates := st.nCreates + 1 }) ∨
    (isSkipStep existing a = false ∧ oracle st.nCreates = false ∧
      Api.syncStep existing oracle st a =
        { st with errors := st.errors ++ [a.name], nCreates := st.nCreates + 1 }) := by
  unfold Api.syncStep isSkipStep Api.classify
  by_cases h1 : a.name ∈ existing
  · left
    simp [h1]
  · simp only [if_neg h1]
    match hcc : a.course_code with
    | none => left; simp
    | some cc =>
      by_cases h2 : cc = []
      · left; simp [h2]
      · simp only [if_neg h2]
        match hv : lookupKey Api.COURSE_MAPPING cc with
        | none => left; simp
        | some pid =>
          by_cases h3 : Api.truthyOpt pid
          · by_cases h4 : oracle st.nCreates
            · right; left; simp [h3, h4]
            · right; right; simp [h3, h4, Bool.not_eq_true _ ▸ h4]
          · left
            simp [h3, Bool.of_not_eq_true h3]

theorem syncLoop_accounting (existing : List Str) (oracle : Nat → Bool)
    (l : List Api.Assignment) :
    ∀ st : Api.SyncState,
    ((Api.syncLoop existing oracle st l).created + (Api.syncLoop existing oracle st l).skipped +
        (Api.syncLoop existing oracle st l).errors.length =
      st.created + st.skipped + st.errors.length + l.length) ∧
    ((Api.syncLoop existing oracle st l).nCreates + st.created + st.errors.length =
      st.nCreates + (Api.syncLoop existing oracle st l).created +
        (Api.syncLoop existing oracle st l).errors.length) ∧
    ((Api.syncLoop existing oracle st l).skipped =
      st.skipped + l.countP (fun a => isSkipStep existing a)) := by
  induction l with
  | nil => intro st; simp [Api.syncLoop]
  | cons a rest ih =>
    intro st
    have hstep : Api.syncLoop existing oracle st (a :: rest) =
        Api.syncLoop existing oracle (Api.syncStep existing oracle st a) rest := rfl
    rw [hstep]
    obtain ⟨ih1, ih2, ih3⟩ := ih (Api.syncStep existing oracle st a)
    rcases syncStep_shape existing oracle st a with ⟨hs, he⟩ | ⟨hs, hok, he⟩ | ⟨hs, hok, he⟩
    · rw [he] at ih1 ih2 ih3 ⊢
      dsimp only at ih1 ih2 ih3
      refine ⟨?_, ?_, ?_⟩
      · simp only [List.length_cons]
        omega
      · omega
      · rw [ih3, List.countP_cons]
        have hif : (if (fun a => isSkipStep existing a) a = true then 1 else 0) = 1 := by
          simp [hs]
        rw [hif]
        omega
    · rw [he] at ih1 ih2 ih3 ⊢
      dsimp only at ih1 ih2 ih3
      refine ⟨?_, ?_, ?_⟩
      · simp only [List.length_cons]
        omega
      · omega
      · rw [ih3, List.countP_cons]
        have hif : (if (fun a => isSkipStep existing a) a = true then 1 else 0) = 0 := by
          simp [hs]
        rw [hif]
        omega
    · rw [he] at ih1 ih2 ih3 ⊢
      dsimp only at ih1 ih2 ih3
      simp only [List.length_append, List.length_cons, List.length_nil] at ih1 ih2
      refine ⟨?_, ?_, ?_⟩
      · simp only [List.length_cons]
        omega
      · omega
      · rw [ih3, List.countP_cons]
        have hif : (if (fun a => isSkipStep existing a) a = true then 1 else 0) = 0 := by
          simp [hs]
        rw [hif]
        omega

/-- C1: in every run of the pipeline that reaches the loop (configuration
present, no exception), the summary is the success body whose total is the
number of extracted assignment records, and the records are fully accounted
for: created + skipped + length of the error list = total; every creation
request is counted as created or as an error (nCreates = created + errors),
so no record is double-created; and every skipped record was skipped by one
of the three branch reasons (skipped = count of skip-classified records). -/
theorem run_accounting (icsUrl notionToken : Str) (events : List Api.VEvent) (now : Int)
    (qresp : Api.QueryResp) (oracle : Nat → Bool)
    (hUrl : icsUrl ≠ []) (hTok : notionToken ≠ []) :
    Api.sync_assignments icsUrl notionToken none events now qresp oracle =
      (.ok (Api.fetch_canvas_assignments events now).length
        (Api.syncLoop (Api.get_existing_tasks qresp) oracle Api.initState
          (Api.fetch_canvas_assignments events now)).created
        (Api.syncLoop (Api.get_existing_tasks qresp) oracle Api.initState
          (Api.fetch_canvas_assignments events now)).skipped
        (Api.syncLoop (Api.get_existing_tasks qresp) oracle Api.initState
          (Api.fetch_canvas_assignments events now)).errors, 200) ∧
    ((Api.syncLoop (Api.get_existing_tasks qresp) oracle Api.initState
        (Api.fetch_canvas_assignments events now)).created +
      (Api.syncLoop (Api.get_existing_tasks qresp) oracle Api.initState
        (Api.fetch_canvas_assignments events now)).skipped +
      (Api.syncLoop (Api.get_existing_tasks qresp) oracle Api.initState
        (Api.fetch_canvas_assignments events now)).errors.length =
      (Api.fetch_canvas_assignments events now).length) ∧
    ((Api.syncLoop (Api.get_existing_tasks qresp) oracle Api.initState
        (Api.fetch_canvas_assignments events now)).nCreates =
      (Api.syncLoop (Api.get_existing_tasks qresp) oracle Api.initState
        (Api.fetch_canvas_assignments events now)).created +
      (Api.syncLoop (Api.get_existing_tasks qresp) oracle Api.initState
        (Api.fetch_canvas_assignments events now)).errors.length) ∧
    ((Api.syncLoop (Api.get_existing_tasks qresp) oracle Api.initState
        (Api.fetch_canvas_assignments events now)).skipped =
      (Api.fetch_canvas_assignments events now).countP
        (fun a => isSkipStep (Api.get_existing_tasks qresp) a)) := by
  obtain ⟨h1, h2, h3⟩ := syncLoop_accounting (Api.get_existing_tasks qresp) oracle
    (Api.fetch_canvas_assignments events now) Api.initState
  have e1 : Api.initState.created = 0 := rfl
  have e2 : Api.initState.skipped = 0 := rfl
  have e3 : Api.initState.errors = ([] : List Str) := rfl
  have e4 : Api.initState.nCreates = 0 := rfl
  simp only [e1, e2, e3, e4, List.length_nil] at h1 h2 h3
  refine ⟨?_, by omega, by omega, by omega⟩
  unfold Api.sync_assignments
  rw [if_neg hUrl, if_neg hTok]

/-- C1 witness: a concrete run over one mapped assignment with all requests
succeeding: total 1, created 1, skipped 0, no errors, one request issued. -/
theorem run_accounting_witness :
    Api.sync_assignments "u".toList "t".toList none
      [{ compName := "VEVENT".toList, summary := "Homework 5".toList,
         dtstart := some { isoStr := some "2025-12-01".toList, fmtStr := [], dateOrd := 100 },
         description := [], location := "cs_124_120258_248828".toList,
         uid := "e1".toList }] 0
      { status := 200, results := [] } (fun _ => true) =
      (.ok 1 1 0 [], 200) := by
  have h := run_accounting "u".toList "t".toList
    [{ compName := "VEVENT".toList, summary := "Homework 5".toList,
       dtstart := some { isoStr := some "2025-12-01".toList, fmtStr := [], dateOrd := 100 },
       description := [], location := "cs_124_120258_248828".toList,
       uid := "e1".toList }] 0
    { status := 200, results := [] } (fun _ => true) (by decide) (by decide)
  rw [h.1]
  decide

theorem syncLoop_errors_mono (existing : List Str) (oracle : Nat → Bool)
    (l : List Api.Assignment) :
    ∀ st : Api.SyncState, ∃ tail,
      (Api.syncLoop existing oracle st l).errors = st.errors ++ tail := by
  induction l with
  | nil => intro st; exact ⟨[], by simp [Api.syncLoop]⟩
  | cons a rest ih =>
    intro st
    have hstep : Api.syncLoop existing oracle st (a :: rest) =
        Api.syncLoop existing oracle (Api.syncStep existing oracle st a) rest := rfl
    rw [hstep]
    obtain ⟨tail, htail⟩ := ih (Api.syncStep existing oracle st a)
    rcases syncStep_shape existing oracle st a with ⟨_, he⟩ | ⟨_, _, he⟩ | ⟨_, _, he⟩ <;>
      rw [he] at htail ⊢ <;> dsimp only at htail
    · exact ⟨tail, htail⟩
    · exact ⟨tail, htail⟩
    · exact ⟨[a.name] ++ tail, htail.trans (List.append_assoc _ _ _)⟩

/-- C6: an assignment whose creation request fails is recorded by name in
the error list and does not abort the run: the loop goes on to process the
remaining assignments from the state with the appended error, and the run
still returns HTTP 200 with the success summary covering the full input
list, the failed name being in its error list. -/
theorem failed_create_recorded (icsUrl notionToken : Str) (events : List Api.VEvent)
    (now : Int) (qresp : Api.QueryResp) (oracle : Nat → Bool)
    (pre post : List Api.Assignment) (a : Api.Assignment) (cc pid : Str)
    (hUrl : icsUrl ≠ []) (hTok : notionToken ≠ [])
    (hsplit : Api.fetch_canvas_assignments events now = pre ++ a :: post)
    (hdup : a.name ∉ Api.get_existing_tasks qresp)
    (hcc : a.course_code = some cc) (hccne : cc ≠ [])
    (hmap : lookupKey Api.COURSE_MAPPING cc = some (some pid)) (hpid : pid ≠ [])
    (hfail : oracle (Api.syncLoop (Api.get_existing_tasks qresp) oracle
      Api.initState pre).nCreates = false) :
    (Api.syncLoop (Api.get_existing_tasks qresp) oracle Api.initState
        (pre ++ a :: post) =
      Api.syncLoop (Api.get_existing_tasks qresp) oracle
        { created := (Api.syncLoop (Api.get_existing_tasks qresp) oracle
            Api.initState pre).created,
          skipped := (Api.syncLoop (Api.get_existing_tasks qresp) oracle
            Api.initState pre).skipped,
          errors := (Api.syncLoop (Api.get_existing_tasks qresp) oracle
            Api.initState pre).errors ++ [a.name],
          nCreates := (Api.syncLoop (Api.get_existing_tasks qresp) oracle
            Api.initState pre).nCreates + 1 } post) ∧
    (∃ c s e, Api.sync_assignments icsUrl notionToken none events now qresp oracle =
      (.ok (pre ++ a :: post).length c s e, 200) ∧ a.name ∈ e) := by
  have hstep : Api.syncStep (Api.get_existing_tasks qresp) oracle
      (Api.syncLoop (Api.get_existing_tasks qresp) oracle Api.initState pre) a =
      { created := (Api.syncLoop (Api.get_existing_tasks qresp) oracle
          Api.initState pre).created,
        skipped := (Api.syncLoop (Api.get_existing_tasks qresp) oracle
          Api.initState pre).skipped,
        errors := (Api.syncLoop (Api.get_existing_tasks qresp) oracle
          Api.initState pre).errors ++ [a.name],
        nCreates := (Api.syncLoop (Api.get_existing_tasks qresp) oracle
          Api.initState pre).nCreates + 1 } := by
    have htr : Api.truthyOpt (some pid) = true := by
      simp [Api.truthyOpt, List.isEmpty_iff, hpid]
    simp only [Api.syncStep, hcc, if_neg hdup, if_neg hccne, hmap, htr, if_true, hfail]
    simp
  have hloop : Api.syncLoop (Api.get_existing_tasks qresp) oracle Api.initState
      (pre ++ a :: post) =
      Api.syncLoop (Api.get_existing_tasks qresp) oracle
        { created := (Api.syncLoop (Api.get_existing_tasks qresp) oracle
            Api.initState pre).created,
          skipped := (Api.syncLoop (Api.get_existing_tasks qresp) oracle
            Api.initState pre).skipped,
          errors := (Api.syncLoop (Api.get_existing_tasks qresp) oracle
            Api.initState pre).errors ++ [a.name],
          nCreates := (Api.syncLoop (Api.get_existing_tasks qresp) oracle
            Api.initState pre).nCreates + 1 } post := by
    show List.foldl (Api.syncStep (Api.get_existing_tasks qresp) oracle) Api.initState
        (pre ++ a :: post) = _
    rw [List.foldl_append]
    show List.foldl (Api.syncStep (Api.get_existing_tasks qresp) oracle)
        (Api.syncStep (Api.get_existing_tasks qresp) oracle
          (List.foldl (Api.syncStep (Api.get_existing_tasks qresp) oracle)
            Api.initState pre) a) post = _
    rw [show List.foldl (Api.syncStep (Api.get_existing_tasks qresp) oracle)
        Api.initState pre =
        Api.syncLoop (Api.get_existing_tasks qresp) oracle Api.initState pre from rfl,
      hstep]
    rfl
  refine ⟨hloop, ?_⟩
  have hmem : a.name ∈ (Api.syncLoop (Api.get_existing_tasks qresp) oracle Api.initState
      (pre ++ a :: post)).errors := by
    rw [hloop]
    obtain ⟨tail, htail⟩ := syncLoop_errors_mono (Api.get_existing_tasks qresp) oracle post
      { created := (Api.syncLoop (Api.get_existing_tasks qresp) oracle
          Api.initState pre).created,
        skipped := (Api.syncLoop (Api.get_existing_tasks qresp) oracle
          Api.initState pre).skipped,
        errors := (Api.syncLoop (Api.get_existing_tasks qresp) oracle
          Api.initState pre).errors ++ [a.name],
        nCreates := (Api.syncLoop (Api.get_existing_tasks qresp) oracle
          Api.initState pre).nCreates + 1 }
    rw [htail]
    simp
  refine ⟨(Api.syncLoop (Api.get_existing_tasks qresp) oracle Api.initState
      (Api.fetch_canvas_assignments events now)).created,
    (Api.syncLoop (Api.get_existing_tasks qresp) oracle Api.initState
      (Api.fetch_canvas_assignments events now)).skipped,
    (Api.syncLoop (Api.get_existing_tasks qresp) oracle Api.initState
      (Api.fetch_canvas_assignments events now)).errors, ?_, ?_⟩
  · unfold Api.sync_assignments
    rw [if_neg hUrl, if_neg hTok]
    rw [hsplit]
  · rw [hsplit]
    exact hmem

/-- C6 witness: a one-assignment run whose creation request fails returns the
success summary with total 1 and the assignment name in the error list. -/
theorem failed_create_recorded_witness :
    ∃ c s e, Api.sync_assignments "u".toList "t".toList none
      [{ compName := "VEVENT".toList, summary := "Homework 5".toList,
         dtstart := some { isoStr := some "2025-12-01".toList, fmtStr := [], dateOrd := 100 },
         description := [], location := "cs_124_120258_248828".toList,
         uid := "e1".toList }] 0
      { status := 200, results := [] } (fun _ => false) =
      (.ok 1 c s e, 200) ∧ "Homework 5".toList ∈ e := by
  have h := (failed_create_recorded "u".toList "t".toList
    [{ compName := "VEVENT".toList, summary := "Homework 5".toList,
       dtstart := some { isoStr := some "2025-12-01".toList, fmtStr := [], dateOrd := 100 },
       description := [], location := "cs_124_120258_248828".toList,
       uid := "e1".toList }] 0
    { status := 200, results := [] } (fun _ => false) [] []
    { name := "Homework 5".toList, course_code := some "CS 124".toList,
      due_date := some "2025-12-01".toList, canvas_url := none, uid := "e1".toList }
    "CS 124".toList "25a399d357138052ab2be817336f99b7".toList
    (by decide) (by decide) (by decide) (by decide) rfl (by decide) (by decide)
    (by decide) (by decide)).2
  simpa using h

theorem syncStep_nCreates_nodup (oracle : Nat → Bool) (st : Api.SyncState)
    (a : Api.Assignment) :
    (Api.syncStep [] oracle st a).nCreates =
      st.nCreates + (if Api.eligible a then 1 else 0) := by
  unfold Api.syncStep Api.eligible
  rw [if_neg (List.not_mem_nil a.name)]
  match hcc : a.course_code with
  | none => simp
  | some cc =>
    by_cases h2 : cc = []
    · simp [h2]
    · simp only [if_neg h2]
      match hv : lookupKey Api.COURSE_MAPPING cc with
      | none => simp
      | some pid =>
        by_cases h3 : Api.truthyOpt pid
        · by_cases h4 : oracle st.nCreates <;> simp [h3, h4]
        · simp [h3]

theorem syncLoop_nCreates_nodup (oracle : Nat → Bool) (l : List Api.Assignment) :
    ∀ st : Api.SyncState,
      (Api.syncLoop [] oracle st l).nCreates =
        st.nCreates + l.countP (fun a => Api.eligible a) := by
  induction l with
  | nil => intro st; simp [Api.syncLoop]
  | cons a rest ih =>
    intro st
    have hstep : Api.syncLoop [] oracle st (a :: rest) =
        Api.syncLoop [] oracle (Api.syncStep [] oracle st a) rest := rfl
    rw [hstep, ih (Api.syncStep [] oracle st a), syncStep_nCreates_nodup,
      List.countP_cons]
    by_cases he : Api.eligible a
    · simp [he]
      omega
    · simp [he]

/-- C8: when the existing-task query returns a non-success status,
get_existing_tasks yields the empty set and the run proceeds; consequently
no assignment is classified as a duplicate, and every mapped (eligible)
assignment is submitted for creation - the number of creation requests
issued by the loop is exactly the count of eligible assignments, regardless
of what titles exist in the destination. -/
theorem query_failure_disables_dedup (qresp : Api.QueryResp) (h : qresp.status ≠ 200) :
    Api.get_existing_tasks qresp = [] ∧
    (∀ ok : Bool, ∀ a : Api.Assignment,
      Api.classify (Api.get_existing_tasks qresp) ok a ≠ .dup) ∧
    (∀ oracle : Nat → Bool, ∀ l : List Api.Assignment,
      (Api.syncLoop (Api.get_existing_tasks qresp) oracle Api.initState l).nCreates =
        l.countP (fun a => Api.eligible a)) := by
  have hempty : Api.get_existing_tasks qresp = [] := by
    unfold Api.get_existing_tasks
    rw [if_neg h]
  refine ⟨hempty, ?_, ?_⟩
  · intro ok a
    rw [hempty]
    unfold Api.classify
    rw [if_neg (List.not_mem_nil a.name)]
    match hcc : a.course_code with
    | none => simp
    | some cc =>
      by_cases h2 : cc = []
      · simp [h2]
      · simp only [if_neg h2]
        match hv : lookupKey Api.COURSE_MAPPING cc with
        | none => simp
        | some pid =>
          by_cases h3 : Api.truthyOpt pid
          · by_cases h4 : ok <;> simp [h3, h4]
          · simp [h3]
  · intro oracle l
    rw [hempty, syncLoop_nCreates_nodup]
    simp [Api.initState]

/-- A concrete failed query response (HTTP 404) that nevertheless carries a
page titled "Homework 5". -/
def resp404 : Api.QueryResp :=
  { status := 404, results := [{ title := ["Homework 5".toList] }] }

/-- C8 witness: with the concrete 404 query response, the existing set is
empty, nothing is classified duplicate, and the loop issues one creation
request per eligible assignment. -/
theorem query_failure_disables_dedup_witness :
    Api.get_existing_tasks resp404 = [] ∧
    (∀ ok : Bool, ∀ a : Api.Assignment,
      Api.classify (Api.get_existing_tasks resp404) ok a ≠ .dup) ∧
    (∀ oracle : Nat → Bool, ∀ l : List Api.Assignment,
      (Api.syncLoop (Api.get_existing_tasks resp404) oracle
        Api.initState l).nCreates = l.countP (fun a => Api.eligible a)) :=
  query_failure_disables_dedup resp404 (by decide)

/-- C7: the resolver tries the exact mapping lookup first and then the
space-insensitive fallback, so for every key of the mapping the key with
its spaces removed resolves to the same destination-project value as the
key itself. -/
theorem resolver_despace_agrees (k : Str) (v : Option Str)
    (hk : (k, v) ∈ Cli.COURSE_MAPPING) :
    Cli.find_notion_project_url (some (Cli.despace k)) =
      Cli.find_notion_project_url (some k) := by
  have hall : ∀ p ∈ Cli.COURSE_MAPPING,
      Cli.find_notion_project_url (some (Cli.despace p.1)) =
        Cli.find_notion_project_url (some p.1) := by decide
  exact hall (k, v) hk

/-- C7 witness: "CS124" resolves to the same project URL as "CS 124". -/
theorem resolver_despace_agrees_witness :
    Cli.find_notion_project_url (some "CS124".toList) =
      Cli.find_notion_project_url (some "CS 124".toList) := by
  have h := resolver_despace_agrees "CS 124".toList
    (some "https://www.notion.so/25a399d357138052ab2be817336f99b7".toList) (by decide)
  have hd : Cli.despace "CS 124".toList = "CS124".toList := by decide
  rw [hd] at h
  exact h

/-- C10: every assignment record produced by the serverless extractor has a
due_date that is present (events lacking a start date are dropped before a
record is built) and date-only: the stored string never contains a 'T'
time separator. -/
theorem fetch_due_dates_date_only (events : List Api.VEvent) (now : Int)
    (a : Api.Assignment) (ha : a ∈ Api.fetch_canvas_assignments events now) :
    ∃ d, a.due_date = some d ∧ 'T' ∉ d := by
  obtain ⟨e, he, hp⟩ := List.mem_filterMap.mp ha
  simp only [Api.processEvent] at hp
  repeat' split at hp
  all_goals try exact Option.noConfusion hp
  all_goals rw [Option.some_inj] at hp
  all_goals subst hp
  all_goals exact ⟨_, rfl, not_mem_stripTime _⟩

/-- C10 witness: a concrete event with a timed ISO start yields a record
with a date-only due date. -/
theorem fetch_due_dates_date_only_witness :
    ∃ d, ({ name := "Homework 5".toList, course_code := some "CS 124".toList,
            due_date := some "2025-12-01".toList, canvas_url := none,
            uid := "e1".toList } : Api.Assignment).due_date = some d ∧ 'T' ∉ d :=
  fetch_due_dates_date_only
    [{ compName := "VEVENT".toList, summary := "Homework 5".toList,
       dtstart := some { isoStr := some "2025-12-01T10:00:00".toList, fmtStr := [],
                         dateOrd := 100 },
       description := [], location := "cs_124_120258_248828".toList,
       uid := "e1".toList }] 0 _ (by decide)

theorem takeWhile_sandwich (p : Char → Bool) (xs : Str) (y : Char) (r : Str)
    (hxs : ∀ c ∈ xs, p c = true) (hy : p y = false) :
    (xs ++ y :: r).takeWhile p = xs := by
  rw [List.takeWhile_append_of_pos hxs, List.takeWhile_cons_of_neg (by simp [hy])]
  simp

theorem dropWhile_sandwich (p : Char → Bool) (xs : Str) (y : Char) (r : Str)
    (hxs : ∀ c ∈ xs, p c = true) (hy : p y = false) :
    (xs ++ y :: r).dropWhile p = y :: r := by
  rw [List.dropWhile_append_of_pos hxs, List.dropWhile_cons_of_neg (by simp [hy])]

theorem tagMatchAt_hit (sub num run s : Str)
    (hsub : sub ≠ []) (hsub2 : ∀ c ∈ sub, isLowerAlpha c = true)
    (hnum : num ≠ []) (hnum2 : ∀ c ∈ num, isDigitChar c = true)
    (hrun : run ≠ []) (hrun2 : ∀ c ∈ run, digitOrUnd c = true) :
    Api.tagMatchAt ('[' :: (sub ++ '_' :: (num ++ '_' :: (run ++ ']' :: s)))) =
      some (sub, num) := by
  have h1 := takeWhile_sandwich isLowerAlpha sub '_'
    (num ++ '_' :: (run ++ ']' :: s)) hsub2 (by decide)
  have h2 := dropWhile_sandwich isLowerAlpha sub '_'
    (num ++ '_' :: (run ++ ']' :: s)) hsub2 (by decide)
  have h3 := takeWhile_sandwich isDigitChar num '_' (run ++ ']' :: s) hnum2 (by decide)
  have h4 := dropWhile_sandwich isDigitChar num '_' (run ++ ']' :: s) hnum2 (by decide)
  have h5 := takeWhile_sandwich digitOrUnd run ']' s hrun2 (by decide)
  have h6 := dropWhile_sandwich digitOrUnd run ']' s hrun2 (by decide)
  simp only [Api.tagMatchAt, h1, h2, h3, h4, h5, h6, if_neg hsub, if_neg hnum,
    if_neg hrun]

theorem tagMatchAt_ne (c : Char) (cs : Str) (hc : c ≠ '[') :
    Api.tagMatchAt (c :: cs) = none := by
  unfold Api.tagMatchAt
  split
  · next r heq =>
    exact absurd (List.head_eq_of_cons_eq heq) hc
  · rfl

theorem findTag_through (p : Str) (rest : Str) (hp : '[' ∉ p) :
    Api.findTag (p ++ rest) = Api.findTag rest := by
  induction p with
  | nil => rfl
  | cons c cs ih =>
    have hc : c ≠ '[' := fun h => hp (h ▸ List.mem_cons_self c cs)
    have hcs : '[' ∉ cs := fun h => hp (List.mem_cons_of_mem c h)
    show Api.findTag (c :: (cs ++ rest)) = Api.findTag rest
    rw [Api.findTag, tagMatchAt_ne c _ hc]
    exact ih hcs

/-- C4: for a title whose lowercased form carries the machine-generated
bracketed context tag [subject_number_semesterid_sectionid] (subject
non-empty letters, number non-empty digits, trailing ids non-empty digits
and underscores, nothing bracketed before it), the derived course code is
exactly the upper-cased subject, one space, and the number - whatever the
letter case in the original title, since only the lowercased image is
constrained. -/
theorem course_code_from_tag (t loc p sub num run s : Str)
    (hp : '[' ∉ p)
    (hsub : sub ≠ []) (hsub2 : ∀ c ∈ sub, isLowerAlpha c = true)
    (hnum : num ≠ []) (hnum2 : ∀ c ∈ num, isDigitChar c = true)
    (hrun : run ≠ []) (hrun2 : ∀ c ∈ run, digitOrUnd c = true)
    (ht : t.map pyLower =
      p ++ '[' :: (sub ++ '_' :: (num ++ '_' :: (run ++ ']' :: s)))) :
    Api.extract_course_code t loc = some (sub.map pyUpper ++ ' ' :: num) := by
  unfold Api.extract_course_code
  rw [ht, findTag_through p _ hp, Api.findTag,
    tagMatchAt_hit sub num run s hsub hsub2 hnum hnum2 hrun hrun2]

/-- C4 witness: the mixed-case tag [CS_124_120258_248828] in a concrete
title yields course code "CS 124". -/
theorem course_code_from_tag_witness :
    Api.extract_course_code "Quiz 2 [CS_124_120258_248828]".toList [] =
      some "CS 124".toList :=
  (course_code_from_tag "Quiz 2 [CS_124_120258_248828]".toList []
    "quiz 2 ".toList "cs".toList "124".toList "120258_248828".toList []
    (by decide) (by decide) (by decide) (by decide) (by decide) (by decide)
    (by decide) (by decide)).trans (by decide)

theorem tagMatchAt_props (s : Str) (sub num : Str)
    (h : Api.tagMatchAt s = some (sub, num)) :
    sub ≠ [] ∧ (∀ c ∈ sub, isLowerAlpha c = true) ∧
    num ≠ [] ∧ (∀ c ∈ num, isDigitChar c = true) := by
  simp only [Api.tagMatchAt] at h
  repeat' split at h
  all_goals try exact Option.noConfusion h
  rw [Option.some_inj, Prod.mk.injEq] at h
  obtain ⟨h1, h2⟩ := h
  subst h1
  subst h2
  refine ⟨by assumption, fun c hc => List.mem_takeWhile_imp hc,
    by assumption, fun c hc => List.mem_takeWhile_imp hc⟩

theorem findTag_props (s : Str) : ∀ sub num : Str,
    Api.findTag s = some (sub, num) →
    sub ≠ [] ∧ (∀ c ∈ sub, isLowerAlpha c = true) ∧
    num ≠ [] ∧ (∀ c ∈ num, isDigitChar c = true) := by
  induction s with
  | nil => exact fun sub num h => Option.noConfusion h
  | cons c cs ih =>
    intro sub num h
    rw [Api.findTag] at h
    rcases hm : Api.tagMatchAt (c :: cs) with _ | r
    · rw [hm] at h
      exact ih sub num h
    · rw [hm] at h
      rw [Option.some_inj] at h
      subst h
      exact tagMatchAt_props _ _ _ hm

theorem locMatchAt_props (s : Str) (sub num : Str)
    (h : Api.locMatchAt s = some (sub, num)) :
    sub ≠ [] ∧ (∀ c ∈ sub, isLowerAlpha c = true) ∧
    num ≠ [] ∧ (∀ c ∈ num, isDigitChar c = true) := by
  simp only [Api.locMatchAt] at h
  repeat' split at h
  all_goals try exact Option.noConfusion h
  all_goals rw [Option.some_inj, Prod.mk.injEq] at h
  all_goals obtain ⟨h1, h2⟩ := h
  all_goals subst h1
  all_goals subst h2
  all_goals refine ⟨by assumption, fun c hc => List.mem_takeWhile_imp hc,
    by assumption, fun c hc => List.mem_takeWhile_imp hc⟩

theorem findLoc_props (s : Str) : ∀ sub num : Str,
    Api.findLoc s = some (sub, num) →
    sub ≠ [] ∧ (∀ c ∈ sub, isLowerAlpha c = true) ∧
    num ≠ [] ∧ (∀ c ∈ num, isDigitChar c = true) := by
  induction s with
  | nil => exact fun sub num h => Option.noConfusion h
  | cons c cs ih =>
    intro sub num h
    rw [Api.findLoc] at h
    rcases hm : Api.locMatchAt (c :: cs) with _ | r
    · rw [hm] at h
      exact ih sub num h
    · rw [hm] at h
      rw [Option.some_inj] at h
      subst h
      exact locMatchAt_props _ _ _ hm

theorem extract_shape (s l code : Str)
    (h : Api.extract_course_code s l = some code) :
    ∃ sub num : Str, code = sub.map pyUpper ++ ' ' :: num ∧
      sub ≠ [] ∧ (∀ c ∈ sub, isLowerAlpha c = true) ∧
      num ≠ [] ∧ (∀ c ∈ num, isDigitChar c = true) := by
  unfold Api.extract_course_code at h
  rcases hm : Api.findTag (s.map pyLower) with _ | r
  · rw [hm] at h
    dsimp only at h
    by_cases hne : l ≠ []
    · rw [if_pos hne] at h
      rcases hl : Api.findLoc (l.map pyLower) with _ | r2
      · rw [hl] at h
        exact Option.noConfusion h
      · obtain ⟨sub, num⟩ := r2
        rw [hl] at h
        dsimp only at h
        rw [Option.some_inj] at h
        exact ⟨sub, num, h.symm, findLoc_props _ _ _ hl⟩
    · rw [if_neg hne] at h
      exact Option.noConfusion h
  · obtain ⟨sub, num⟩ := r
    rw [hm] at h
    dsimp only at h
    rw [Option.some_inj] at h
    exact ⟨sub, num, h.symm, findTag_props _ _ _ hm⟩

theorem lookupKey_mem {β : Type} (m : List (Str × β)) (cc : Str) (v : β)
    (h : lookupKey m cc = some v) : (cc, v) ∈ m := by
  induction m with
  | nil => exact Option.noConfusion h
  | cons p rest ih =>
    obtain ⟨k0, v0⟩ := p
    unfold lookupKey at h
    by_cases hk : cc = k0
    · rw [if_pos hk] at h
      rw [Option.some_inj] at h
      subst h
      subst hk
      exact List.mem_cons_self _ _
    · rw [if_neg hk] at h
      exact List.mem_cons_of_mem _ (ih h)

theorem excluded_key_is_citl (cc : Str) (v : Option Str)
    (h : lookupKey Api.COURSE_MAPPING cc = some v) (hf : Api.truthyOpt v = false) :
    cc = "CITL".toList := by
  have hall : ∀ p ∈ Api.COURSE_MAPPING,
      Api.truthyOpt p.2 = false → p.1 = "CITL".toList := by decide
  exact hall (cc, v) (lookupKey_mem _ _ _ h) hf

theorem fetch_course_code_from_extract (events : List Api.VEvent) (now : Int)
    (a : Api.Assignment) (ha : a ∈ Api.fetch_canvas_assignments events now) :
    ∃ s l, a.course_code = Api.extract_course_code s l := by
  obtain ⟨e, he, hp⟩ := List.mem_filterMap.mp ha
  simp only [Api.processEvent] at hp
  repeat' split at hp
  all_goals try exact Option.noConfusion hp
  all_goals rw [Option.some_inj] at hp
  all_goals subst hp
  all_goals exact ⟨e.summary, e.location, rfl⟩

/-- C9: every course code the serverless extractor returns has the shape
non-empty uppercase letters, one space, non-empty digits; since the only
mapping key bound to the excluded sentinel ("CITL") has no space, an
assignment built by the extractor can never be classified by the loop as an
intentionally-excluded recognized course - that skip branch is unreachable
on extractor-produced records. -/
theorem extracted_codes_never_excluded :
    (∀ s l code : Str, Api.extract_course_code s l = some code →
      ∃ subU num : Str, code = subU ++ ' ' :: num ∧ subU ≠ [] ∧
        (∀ c ∈ subU, isUpperAlpha c = true) ∧ num ≠ [] ∧
        (∀ c ∈ num, isDigitChar c = true)) ∧
    (∀ events : List Api.VEvent, ∀ now : Int, ∀ a : Api.Assignment,
      a ∈ Api.fetch_canvas_assignments events now →
      ∀ existing : List Str, ∀ ok : Bool,
        Api.classify existing ok a ≠ .excluded) := by
  have hshape : ∀ s l code : Str, Api.extract_course_code s l = some code →
      ∃ subU num : Str, code = subU ++ ' ' :: num ∧ subU ≠ [] ∧
        (∀ c ∈ subU, isUpperAlpha c = true) ∧ num ≠ [] ∧
        (∀ c ∈ num, isDigitChar c = true) := by
    intro s l code h
    obtain ⟨sub, num, hcode, hsub, hsub2, hnum, hnum2⟩ := extract_shape s l code h
    refine ⟨sub.map pyUpper, num, hcode, ?_, ?_, hnum, hnum2⟩
    · simpa using hsub
    · intro c hcm
      obtain ⟨c0, hc0, rfl⟩ := List.mem_map.mp hcm
      exact isUpperAlpha_pyUpper c0 (hsub2 c0 hc0)
  refine ⟨hshape, ?_⟩
  intro events now a ha existing ok hC
  obtain ⟨s, l, hcc⟩ := fetch_course_code_from_extract events now a ha
  unfold Api.classify at hC
  by_cases hdup : a.name ∈ existing
  · rw [if_pos hdup] at hC
    exact absurd hC (by decide)
  · rw [if_neg hdup] at hC
    rcases hco : a.course_code with _ | cc
    · rw [hco] at hC
      dsimp only at hC
      exact absurd hC (by decide)
    · rw [hco] at hC
      dsimp only at hC
      by_cases hcc0 : cc = []
      · rw [if_pos hcc0] at hC
        exact absurd hC (by decide)
      · rw [if_neg hcc0] at hC
        rcases hlk : lookupKey Api.COURSE_MAPPING cc with _ | pid
        · rw [hlk] at hC
          dsimp only at hC
          exact absurd hC (by decide)
        · rw [hlk] at hC
          dsimp only at hC
          by_cases htr : Api.truthyOpt pid = true
          · rw [if_pos htr] at hC
            cases ok
            · exact absurd hC (by decide)
            · exact absurd hC (by decide)
          · have hex : Api.extract_course_code s l = some cc := hcc.symm.trans hco
            obtain ⟨subU, num, hce, -, -, -, -⟩ := hshape s l cc hex
            have hsp : ' ' ∈ cc := by
              rw [hce]
              simp
            have hcitl : cc = "CITL".toList :=
              excluded_key_is_citl cc pid hlk (by simpa using htr)
            rw [hcitl] at hsp
            exact absurd hsp (by decide)

/-- C9 witness: a concrete extracted code "CS 101" has the
letters-space-digits shape, and a concrete fetched assignment is not
classified as excluded. -/
theorem extracted_codes_never_excluded_witness :
    (∃ subU num : Str, "CS 101".toList = subU ++ ' ' :: num ∧ subU ≠ [] ∧
      (∀ c ∈ subU, isUpperAlpha c = true) ∧ num ≠ [] ∧
      (∀ c ∈ num, isDigitChar c = true)) ∧
    Api.classify [] true
      { name := "Homework 5".toList, course_code := some "CS 124".toList,
        due_date := some "2025-12-01".toList, canvas_url := none,
        uid := "e1".toList } ≠ .excluded :=
  ⟨extracted_codes_never_excluded.1 "Reading [cs_101_12345_67890]".toList []
      "CS 101".toList (by decide),
    extracted_codes_never_excluded.2
      [{ compName := "VEVENT".toList, summary := "Homework 5".toList,
         dtstart := some { isoStr := some "2025-12-01".toList, fmtStr := [],
                           dateOrd := 100 },
         description := [], location := "cs_124_120258_248828".toList,
         uid := "e1".toList }] 0 _ (by decide) [] true⟩
